import Mathlib

/-!
# SSH environment resource of terraform-provider-awscloud9

A shallow embedding of `internal/provider/ssh_environment_resource.go`:
the record types the resource reads and writes, the tag-diff loops of
`Update`, the mapper `convertModelToPlan`, and the operations `Create`,
`Read` and `Update` as state-passing functions over an abstract remote
client.  Every remote call an operation issues is logged, in order, together
with the error it returned.
-/

namespace Provider

/-! ## Framework values -/

/-- The three states of a framework `types.String`. -/
inductive StringValue where
  | null
  | unknown
  | known (value : String)
  deriving DecidableEq, Repr

/-- Method `IsNull()` of a `types.String`. -/
def StringValue.IsNull : StringValue → Bool
  | .null => true
  | _ => false

/-- Method `ValueString()` of a `types.String`: the empty string unless known. -/
def StringValue.ValueString : StringValue → String
  | .known s => s
  | _ => ""

/-- The three states of a framework `types.Int64`; a known value is a Go `int64`. -/
inductive Int64Value where
  | null
  | unknown
  | known (value : Int)
  deriving DecidableEq, Repr

/-- Method `IsNull()` of a `types.Int64`. -/
def Int64Value.IsNull : Int64Value → Bool
  | .null => true
  | _ => false

/-- Method `ValueInt64()` of a `types.Int64`: zero unless known. -/
def Int64Value.ValueInt64 : Int64Value → Int
  | .known v => v
  | _ => 0

/-- Go conversion `int16(x)` of an `int64`: keep the low 16 bits, read as signed. -/
def int16 (x : Int) : Int :=
  (x + 32768) % 65536 - 32768

/-- A Go `map[string]V`, as the list of its entries in the order a `range` visits
them.  Go fixes no order, so every statement about maps is made for all entry
lists; `Update.stateLoop_perm` shows that the order of the inner `range` does not
matter at all. -/
abbrev GoMap (α : Type) := List (String × α)

/-- The keys of a Go map are pairwise distinct. -/
def GoMap.WF {α : Type} (m : GoMap α) : Prop :=
  (m.map Prod.fst).Nodup

instance GoMap.decidableWF {α : Type} (m : GoMap α) : Decidable (GoMap.WF m) :=
  inferInstanceAs (Decidable ((m.map Prod.fst).Nodup))

/-- Map index `m[k]` with the comma-ok form: `none` when the key is absent. -/
def GoMap.get? {α : Type} : GoMap α → String → Option α
  | [], _ => none
  | (k, v) :: rest, key => if k = key then some v else GoMap.get? rest key

/-- Go `delete(m, k)`. -/
def GoMap.delete {α : Type} (m : GoMap α) (key : String) : GoMap α :=
  m.filter (fun e => decide (e.1 ≠ key))

/-- Go `m[k] = v`. -/
def GoMap.set {α : Type} (m : GoMap α) (key : String) (v : α) : GoMap α :=
  (key, v) :: GoMap.delete m key

/-- The three states of a framework `types.Map` whose element type is `types.StringType`. -/
inductive MapValue where
  | null
  | unknown
  | known (elements : GoMap StringValue)
  deriving DecidableEq, Repr

/-- Method `Elements()` of a `types.Map`: no entries unless known. -/
def MapValue.Elements : MapValue → GoMap StringValue
  | .known es => es
  | _ => []

/-- Severity of a framework diagnostic. -/
inductive Severity where
  | error
  | warning
  deriving DecidableEq, Repr

/-- A framework diagnostic. -/
structure Diagnostic where
  severity : Severity
  summary : String
  detail : String
  deriving DecidableEq, Repr

/-- The framework type `diag.Diagnostics`. -/
abbrev Diagnostics := List Diagnostic

/-- Method `Diagnostics.HasError()`. -/
def Diagnostics.HasError (ds : Diagnostics) : Bool :=
  ds.any (fun d => decide (d.severity = Severity.error))

/-- Method `Diagnostics.Append(in...)`: a diagnostic already contained is skipped. -/
def Diagnostics.Append (ds : Diagnostics) : Diagnostics → Diagnostics
  | [] => ds
  | d :: rest => Diagnostics.Append (if d ∈ ds then ds else ds ++ [d]) rest

/-- Method `Diagnostics.AddError(summary, detail)`. -/
def Diagnostics.AddError (ds : Diagnostics) (summary detail : String) : Diagnostics :=
  Diagnostics.Append ds [⟨Severity.error, summary, detail⟩]

/-- A `tftypes.Value` of type string. -/
inductive TfValue where
  | null
  | unknown
  | string (s : String)
  deriving DecidableEq, Repr

/-- Call `val.ToTerraformValue(ctx)` on a string element: the value and the error, if any. -/
def StringValue.ToTerraformValue : StringValue → TfValue × Option String
  | .known s => (TfValue.string s, none)
  | .null => (TfValue.null, none)
  | .unknown => (TfValue.unknown, none)

/-- Call `tfVal.As(&strVal)` with `strVal` freshly declared: the content of `strVal`
afterwards and the error, if any.  An unknown value cannot be unmarshalled. -/
def TfValue.As : TfValue → String × Option String
  | .string s => (s, none)
  | .null => ("", none)
  | .unknown => ("", some "unmarshaling unknown values is not supported")

/-- The detail text of the framework's "Value Conversion Error" for a value of the
given kind (unknown or null) that the target type cannot hold; `alternatives` is
what the text offers besides a `types` type. -/
def valueConversionDetail (kind alternatives path target suggested : String) : String :=
  "An unexpected error was encountered trying to build a value. " ++
  "This is always an error in the provider. " ++
  "Please report the following to the provider developer:\n\n" ++
  "Received " ++ kind ++ " value, however the target type cannot handle " ++ kind ++
  " values. Use the corresponding `types` type" ++ alternatives ++
  " or a custom type that handles " ++ kind ++ " values instead.\n\n" ++
  "Path: " ++ path ++ "\nTarget Type: " ++ target ++ "\nSuggested Type: " ++ suggested

/-- Call `tags.ElementsAs(ctx, &target, false)` with `target` a `map[string]string`:
a null map leaves the target empty; an unknown map is reported; of a known map the
first element met that is null or unknown is reported, under the path of its key;
otherwise the target holds the elements.  On a report the target stays empty. -/
def MapValue.ElementsAs : MapValue → Diagnostics × GoMap String
  | .null => ([], [])
  | .unknown =>
    ([⟨Severity.error, "Value Conversion Error",
        valueConversionDetail "unknown" "" "" "map[string]string" "basetypes.MapValue"⟩], [])
  | .known es =>
    match es.find? (fun e => match e.2 with | .known _ => false | _ => true) with
    | none => ([], es.map (fun e => (e.1, e.2.ValueString)))
    | some (key, StringValue.null) =>
      ([⟨Severity.error, "Value Conversion Error",
          valueConversionDetail "null" ", a pointer type" ("[\"" ++ key ++ "\"]")
            "string" "basetypes.StringValue"⟩], [])
    | some (key, _) =>
      ([⟨Severity.error, "Value Conversion Error",
          valueConversionDetail "unknown" "" ("[\"" ++ key ++ "\"]")
            "string" "basetypes.StringValue"⟩], [])

/-! ## Records -/

/-- Modelled from the spec: the declaration of `SSHEnvironmentModel` (aliased as
`SSHEnvironmentResourceModel`) is not part of the source file; the fields are the
ones the resource reads and writes, with the data model of the specification. -/
structure SSHEnvironmentModel where
  Arn : StringValue
  ID : StringValue
  Name : StringValue
  Description : StringValue
  LoginName : StringValue
  Hostname : StringValue
  Port : Int64Value
  EnvironmentPath : StringValue
  NodePath : StringValue
  BastionURL : StringValue
  Tags : MapValue
  deriving DecidableEq, Repr

/-- Modelled from the spec: the declaration of `aws.Tag` is not part of the source
file; a key and a value, as the resource fills them.  The SDK type `cloud9.Tag`
of `Update` carries the same two strings. -/
structure Tag where
  Key : String
  Value : String
  deriving DecidableEq, Repr

/-- Modelled from the spec: the declaration of `aws.CreateEnvironmentSSHRequest` is
not part of the source file; the fields are the ones `Create` assigns. -/
structure CreateEnvironmentSSHRequest where
  Name : String
  LoginName : String
  Hostname : String
  Port : Int
  Tags : List Tag
  BastionHost : String
  NodePath : String
  EnvironmentPath : String
  deriving DecidableEq, Repr

/-- Modelled from the spec: the declaration of `aws.Cloud9SSHEnvironment` is not part
of the source file; the fields are the ones the resource reads and assigns. -/
structure Cloud9SSHEnvironment where
  Arn : String
  EnvironmentId : String
  BastionHost : String
  Name : String
  LoginName : String
  Description : String
  Port : Int
  Hostname : String
  EnvironmentPath : String
  NodePath : String
  Tags : List Tag
  deriving DecidableEq, Repr

/-- Modelled from the spec: the result type of `CreateEnvironmentSSH` is not part of
the source file; `Create` reads its `EnvironmentId`. -/
structure CreateEnvironmentSSHResult where
  EnvironmentId : String
  deriving DecidableEq, Repr

/-! ## Remote client -/

/-- A remote call with its arguments. -/
inductive RemoteCall where
  | CreateEnvironmentSSH (request : CreateEnvironmentSSHRequest)
  | GetSSHEnvironments (envId : String)
  | UpdateEnvironment (env : Cloud9SSHEnvironment)
  | UntagResource (arn : String) (tagKeys : List String)
  | TagResource (arn : String) (tags : List Tag)
  deriving DecidableEq, Repr

/-- One entry of the call log: the call and the error it returned, if any. -/
structure CallRecord where
  call : RemoteCall
  err : Option String
  deriving DecidableEq, Repr

/-- Modelled from the spec: the methods of `aws.AWSCloud9Client` are not part of the
source file.  Each takes the state `σ` of the remote side and its arguments and
gives the answer and the next remote state; an error is its message. -/
structure AWSCloud9Client (σ : Type) where
  CreateEnvironmentSSH : σ → CreateEnvironmentSSHRequest →
    Except String CreateEnvironmentSSHResult × σ
  GetSSHEnvironments : σ → String → Except String (List Cloud9SSHEnvironment) × σ
  UpdateEnvironment : σ → Cloud9SSHEnvironment → Option String × σ
  UntagResource : σ → String → List String → Option String × σ
  TagResource : σ → String → List Tag → Option String × σ

/-- What `req.Plan.Get` or `req.State.Get` yields: the diagnostics of the decoding
and the decoded record. -/
structure Decoded where
  diags : Diagnostics
  value : SSHEnvironmentModel
  deriving DecidableEq, Repr

/-- What an operation leaves behind: the response diagnostics, the record passed
to `resp.State.Set` (`none` when it was never called), the log of remote calls
and the remote state. -/
structure Response (σ : Type) where
  Diagnostics : Diagnostics
  State : Option SSHEnvironmentModel
  calls : List CallRecord
  world : σ

/-! ## Update: the tag diff (lines 314-348) -/

/-- The inner loop over `planTags` (lines 319-332) for one entry of `stateTags`:
the flag `found` and `addedTags` afterwards. -/
def Update.innerLoop (stateKey stateValue : String) :
    GoMap String → List Tag → Bool × List Tag
  | [], addedTags => (false, addedTags)
  | (planKey, planValue) :: rest, addedTags =>
    if planKey = stateKey then
      (true, if stateValue ≠ planValue then addedTags ++ [⟨planKey, planValue⟩] else addedTags)
    else
      Update.innerLoop stateKey stateValue rest addedTags

/-- The loop over `stateTags` (lines 317-337), threading `removedTags` and `addedTags`. -/
def Update.stateLoop (planTags : GoMap String) :
    GoMap String → List String × List Tag → List String × List Tag
  | [], acc => acc
  | (stateKey, stateValue) :: rest, (removedTags, addedTags) =>
    let r := Update.innerLoop stateKey stateValue planTags addedTags
    Update.stateLoop planTags rest
      (if r.1 then removedTags else removedTags ++ [stateKey], r.2)

/-- The loop over `planTags` (lines 339-348), threading `addedTags`. -/
def Update.planLoop (stateTags : GoMap String) : GoMap String → List Tag → List Tag
  | [], addedTags => addedTags
  | (planKey, planValue) :: rest, addedTags =>
    Update.planLoop stateTags rest
      (match GoMap.get? stateTags planKey with
       | some _ => addedTags
       | none => addedTags ++ [⟨planKey, planValue⟩])

/-- Lines 314-348 of `Update`: `(removedTags, addedTags)`. -/
def Update.tagDiff (stateTags planTags : GoMap String) : List String × List Tag :=
  let r := Update.stateLoop planTags stateTags ([], [])
  (r.1, Update.planLoop stateTags planTags r.2)

/-- Deleting every key of `removedTags`, then setting every pair of `addedTags`. -/
def applyTagDiff (observed : GoMap String) (removedTags : List String)
    (addedTags : List Tag) : GoMap String :=
  addedTags.foldl (fun m t => GoMap.set m t.Key t.Value)
    (removedTags.foldl (fun m k => GoMap.delete m k) observed)

/-! ## convertModelToPlan (lines 201-230) -/

/-- Go `len(s)` of a string: its length in bytes. -/
def len (s : String) : Nat :=
  s.utf8ByteSize

/-- The loop of lines 222-224: every tag is stored under its key. -/
def convertModelToPlan.tagLoop : List Tag → GoMap StringValue → GoMap StringValue
  | [], typedTags => typedTags
  | tag :: rest, typedTags =>
    convertModelToPlan.tagLoop rest (GoMap.set typedTags tag.Key (StringValue.known tag.Value))

/-- The mapper `convertModelToPlan(state, environment)`: the record `state` points
to afterwards and the returned diagnostics (those of `NewMapValue`, which has
nothing to report on string elements). -/
def convertModelToPlan (state : SSHEnvironmentModel) (environment : Cloud9SSHEnvironment) :
    SSHEnvironmentModel × Diagnostics :=
  let state := { state with Arn := StringValue.known environment.Arn }
  let state := { state with ID := StringValue.known environment.EnvironmentId }
  let state :=
    if len environment.BastionHost > 0 then
      { state with BastionURL := StringValue.known environment.BastionHost }
    else
      { state with BastionURL := StringValue.null }
  let state := { state with Name := StringValue.known environment.Name }
  let state := { state with LoginName := StringValue.known environment.LoginName }
  let state :=
    if len environment.Description > 0 then
      { state with Description := StringValue.known environment.Description }
    else
      { state with Description := StringValue.null }
  let state := { state with Port := Int64Value.known environment.Port }
  let state := { state with Hostname := StringValue.known environment.Hostname }
  let state := { state with EnvironmentPath := StringValue.known environment.EnvironmentPath }
  let state := { state with NodePath := StringValue.known environment.NodePath }
  let typedTags := convertModelToPlan.tagLoop environment.Tags []
  ({ state with Tags := MapValue.known typedTags }, [])

/-! ## Create (lines 127-199) -/

/-- The request of `Create`: what `req.Plan.Get` yields. -/
structure CreateRequest where
  Plan : Decoded
  deriving DecidableEq, Repr

/-- The tag loop of lines 144-157, threading `calculatedTags` and the response
diagnostics.  A conversion error is added to the diagnostics and the loop goes on. -/
def Create.tagLoop : GoMap StringValue → List Tag × Diagnostics → List Tag × Diagnostics
  | [], acc => acc
  | (key, val) :: rest, (calculatedTags, diags) =>
    let tf := val.ToTerraformValue
    let diags :=
      match tf.2 with
      | some _ => diags.AddError "Convert Error" "Error converting value from tag"
      | none => diags
    let as := tf.1.As
    let diags :=
      match as.2 with
      | some _ => diags.AddError "Convert Error" "Error converting value from tag"
      | none => diags
    Create.tagLoop rest (calculatedTags ++ [⟨key, as.1⟩], diags)

/-- Lines 136-172 of `Create`: the request, the plan record afterwards and the
response diagnostics. -/
def Create.prepare (plan : SSHEnvironmentModel) (diags : Diagnostics) :
    CreateEnvironmentSSHRequest × SSHEnvironmentModel × Diagnostics :=
  let loop := Create.tagLoop plan.Tags.Elements ([], diags)
  let request : CreateEnvironmentSSHRequest :=
    { Name := plan.Name.ValueString
      LoginName := plan.LoginName.ValueString
      Hostname := plan.Hostname.ValueString
      Port := int16 plan.Port.ValueInt64
      Tags := loop.1
      BastionHost := if !plan.BastionURL.IsNull then plan.BastionURL.ValueString else ""
      NodePath := if !plan.NodePath.IsNull then plan.NodePath.ValueString else ""
      EnvironmentPath := if !plan.EnvironmentPath.IsNull then plan.ID.ValueString else "" }
  let plan :=
    if !plan.EnvironmentPath.IsNull then plan
    else { plan with EnvironmentPath := StringValue.known "" }
  (request, plan, loop.2)

/-- The operation `Create`. -/
def Create {σ : Type} (client : AWSCloud9Client σ) (world : σ) (req : CreateRequest) :
    Response σ :=
  let plan := req.Plan.value
  let diags := Diagnostics.Append [] req.Plan.diags
  if diags.HasError then ⟨diags, none, [], world⟩ else
  let p := Create.prepare plan diags
  let request := p.1
  let plan := p.2.1
  let diags := p.2.2
  match client.CreateEnvironmentSSH world request with
  | (Except.error err, world) =>
    ⟨diags.AddError "Client error"
        ("Unable to create environment " ++ request.Name ++ ", got error: " ++ err),
      none, [⟨RemoteCall.CreateEnvironmentSSH request, some err⟩], world⟩
  | (Except.ok environment, world) =>
    let plan := { plan with ID := StringValue.known environment.EnvironmentId }
    let created : CallRecord := ⟨RemoteCall.CreateEnvironmentSSH request, none⟩
    match client.GetSSHEnvironments world environment.EnvironmentId with
    | (Except.error err, world) =>
      ⟨diags.AddError "Client error"
          ("Could not read environment " ++ environment.EnvironmentId ++ ": " ++ err),
        none,
        [created, ⟨RemoteCall.GetSSHEnvironments environment.EnvironmentId, some err⟩], world⟩
    | (Except.ok [], world) =>
      ⟨diags.AddError "Client error"
          ("Could not read environment " ++ environment.EnvironmentId),
        none,
        [created, ⟨RemoteCall.GetSSHEnvironments environment.EnvironmentId, none⟩], world⟩
    | (Except.ok (readResult :: _), world) =>
      let plan := { plan with NodePath := StringValue.known readResult.NodePath }
      let plan := { plan with EnvironmentPath := StringValue.known readResult.EnvironmentPath }
      let plan := { plan with Arn := StringValue.known readResult.Arn }
      ⟨diags, some plan,
        [created, ⟨RemoteCall.GetSSHEnvironments environment.EnvironmentId, none⟩], world⟩

/-! ## Read (lines 232-265) -/

/-- The request of `Read`: what `req.State.Get` yields. -/
structure ReadRequest where
  State : Decoded
  deriving DecidableEq, Repr

/-- The operation `Read`. -/
def Read {σ : Type} (client : AWSCloud9Client σ) (world : σ) (req : ReadRequest) :
    Response σ :=
  let state := req.State.value
  let diags := Diagnostics.Append [] req.State.diags
  if diags.HasError then ⟨diags, none, [], world⟩ else
  let envId := state.ID.ValueString
  match client.GetSSHEnvironments world envId with
  | (Except.error err, world) =>
    ⟨diags.AddError "Error fetching env" ("Could not fetch env " ++ envId ++ ": " ++ err),
      none, [⟨RemoteCall.GetSSHEnvironments envId, some err⟩], world⟩
  | (Except.ok [], world) =>
    ⟨diags.AddError "Environment not found" ("Environment not found: " ++ envId),
      none, [⟨RemoteCall.GetSSHEnvironments envId, none⟩], world⟩
  | (Except.ok (environment :: _), world) =>
    let r := convertModelToPlan state environment
    let diags := Diagnostics.Append diags r.2
    if diags.HasError then
      ⟨diags, none, [⟨RemoteCall.GetSSHEnvironments envId, none⟩], world⟩
    else
      ⟨diags, some r.1, [⟨RemoteCall.GetSSHEnvironments envId, none⟩], world⟩

/-! ## Update (lines 285-402) -/

/-- The request of `Update`: what `req.Plan.Get` and `req.State.Get` yield. -/
structure UpdateRequest where
  Plan : Decoded
  State : Decoded
  deriving DecidableEq, Repr

/-- Lines 350-370 of `Update`: the record sent with the scalar update. -/
def Update.updatedEnv (plan : SSHEnvironmentModel) : Cloud9SSHEnvironment :=
  { Arn := ""
    EnvironmentId := plan.ID.ValueString
    BastionHost := if !plan.BastionURL.IsNull then plan.BastionURL.ValueString else ""
    Name := plan.Name.ValueString
    LoginName := plan.LoginName.ValueString
    Description := plan.Description.ValueString
    Port := if !plan.Port.IsNull then int16 plan.Port.ValueInt64 else 0
    Hostname := plan.Hostname.ValueString
    EnvironmentPath :=
      if !plan.EnvironmentPath.IsNull then plan.EnvironmentPath.ValueString else ""
    NodePath := if !plan.NodePath.IsNull then plan.NodePath.ValueString else ""
    Tags := [] }

/-- The operation `Update`. -/
def Update {σ : Type} (client : AWSCloud9Client σ) (world : σ) (req : UpdateRequest) :
    Response σ :=
  let plan := req.Plan.value
  let diags := Diagnostics.Append [] req.Plan.diags
  if diags.HasError then ⟨diags, none, [], world⟩ else
  let planDecoded := plan.Tags.ElementsAs
  let planTags := planDecoded.2
  let diags := Diagnostics.Append diags planDecoded.1
  if diags.HasError then ⟨diags, none, [], world⟩ else
  let state := req.State.value
  let diags := Diagnostics.Append diags req.State.diags
  if diags.HasError then ⟨diags, none, [], world⟩ else
  let stateDecoded := state.Tags.ElementsAs
  let stateTags := stateDecoded.2
  let diags := Diagnostics.Append diags stateDecoded.1
  if diags.HasError then ⟨diags, none, [], world⟩ else
  let diff := Update.tagDiff stateTags planTags
  let removedTags := diff.1
  let addedTags := diff.2
  let envId := plan.ID.ValueString
  let arn := plan.Arn.ValueString
  let updatedEnv := Update.updatedEnv plan
  match client.UpdateEnvironment world updatedEnv with
  | (some err, world) =>
    ⟨diags.AddError "Error updating environment"
        ("Error updating environment " ++ envId ++ ": " ++ err),
      none, [⟨RemoteCall.UpdateEnvironment updatedEnv, some err⟩], world⟩
  | (none, world) =>
    let updated : CallRecord := ⟨RemoteCall.UpdateEnvironment updatedEnv, none⟩
    match client.UntagResource world arn removedTags with
    | (some err, world) =>
      ⟨diags.AddError "Error untagging environment"
          ("Error untagging environment " ++ envId ++ ": " ++ err),
        none, [updated, ⟨RemoteCall.UntagResource arn removedTags, some err⟩], world⟩
    | (none, world) =>
      let untagged : CallRecord := ⟨RemoteCall.UntagResource arn removedTags, none⟩
      match client.TagResource world arn addedTags with
      | (some err, world) =>
        ⟨diags.AddError "Error tagging environment"
            ("Error tagging environment " ++ envId ++ ": " ++ err),
          none, [updated, untagged, ⟨RemoteCall.TagResource arn addedTags, some err⟩], world⟩
      | (none, world) =>
        ⟨diags, some plan,
          [updated, untagged, ⟨RemoteCall.TagResource arn addedTags, none⟩], world⟩

/-! ## Concrete inputs -/

/-- The record a remote side returns for the environment `envId`. -/
def scenarioEnvironment (envId : String) : Cloud9SSHEnvironment :=
  { Arn := "arn:aws:cloud9:" ++ envId
    EnvironmentId := envId
    BastionHost := ""
    Name := "dev1"
    LoginName := "ubuntu"
    Description := ""
    Port := 22
    Hostname := "1.2.3.4"
    EnvironmentPath := "/home/ubuntu"
    NodePath := "/usr/bin/node"
    Tags := [⟨"env", "prod"⟩] }

/-- A remote side without state on which every call succeeds: a create gives the
id `env-1` and a list-by-id gives one record. -/
def scenarioClient : AWSCloud9Client Unit :=
  { CreateEnvironmentSSH := fun _ _ => (Except.ok ⟨"env-1"⟩, ())
    GetSSHEnvironments := fun _ envId => (Except.ok [scenarioEnvironment envId], ())
    UpdateEnvironment := fun _ _ => (none, ())
    UntagResource := fun _ _ _ => (none, ())
    TagResource := fun _ _ _ => (none, ()) }

/-- A remote side on which a list-by-id finds nothing. -/
def emptyClient : AWSCloud9Client Unit :=
  { scenarioClient with GetSSHEnvironments := fun _ _ => (Except.ok [], ()) }

/-- The desired record of the scenario "create with partial tags": `port` defaulted
to 22, the provider-assigned and provider-determined fields still unknown. -/
def scenarioPlan : SSHEnvironmentModel :=
  { Arn := StringValue.unknown
    ID := StringValue.unknown
    Name := StringValue.known "dev1"
    Description := StringValue.null
    LoginName := StringValue.known "ubuntu"
    Hostname := StringValue.known "1.2.3.4"
    Port := Int64Value.known 22
    EnvironmentPath := StringValue.unknown
    NodePath := StringValue.unknown
    BastionURL := StringValue.null
    Tags := MapValue.known [("env", StringValue.known "prod")] }

/-- The record held after the scenario plan was created as `env-1`. -/
def scenarioState : SSHEnvironmentModel :=
  { scenarioPlan with
    Arn := StringValue.known "arn:aws:cloud9:env-1"
    ID := StringValue.known "env-1"
    EnvironmentPath := StringValue.known "/home/ubuntu"
    NodePath := StringValue.known "/usr/bin/node" }

/-- A remote record that carries the fields of a create request; the fields a
request does not have are given. -/
def Cloud9SSHEnvironment.ofRequest (request : CreateEnvironmentSSHRequest)
    (arn envId description : String) : Cloud9SSHEnvironment :=
  { Arn := arn
    EnvironmentId := envId
    BastionHost := request.BastionHost
    Name := request.Name
    LoginName := request.LoginName
    Description := description
    Port := request.Port
    Hostname := request.Hostname
    EnvironmentPath := request.EnvironmentPath
    NodePath := request.NodePath
    Tags := request.Tags }

/-- A remote record on which the provider returned none of the optional fields. -/
def bareEnvironment : Cloud9SSHEnvironment :=
  { scenarioEnvironment "env-1" with
    EnvironmentPath := ""
    NodePath := ""
    Tags := [] }

/-- The scenario plan with a tag whose value is unknown. -/
def unknownTagPlan : SSHEnvironmentModel :=
  { scenarioPlan with Tags := MapValue.known [("env", StringValue.unknown)] }

/-- The scenario plan with the environment path set by the user. -/
def pathPlan : SSHEnvironmentModel :=
  { scenarioPlan with EnvironmentPath := StringValue.known "/home/ubuntu/environment" }

/-- The held scenario record with two tags, desired with `a` ranged first. -/
def reorderedPlan : SSHEnvironmentModel :=
  { scenarioState with
    Tags := MapValue.known [("a", StringValue.known "1"), ("b", StringValue.known "2")] }

/-- The held scenario record with the same two tags, held with `b` ranged first. -/
def reorderedState : SSHEnvironmentModel :=
  { scenarioState with
    Tags := MapValue.known [("b", StringValue.known "2"), ("a", StringValue.known "1")] }

/-! ## Go maps -/

theorem GoMap.get?_eq_none_iff {α : Type} (m : GoMap α) (key : String) :
    GoMap.get? m key = none ↔ key ∉ m.map Prod.fst := by
  induction m with
  | nil => simp [GoMap.get?]
  | cons e rest ih =>
    obtain ⟨k, v⟩ := e
    by_cases h : k = key
    · simp [GoMap.get?, h]
    · have h2 : ¬ key = k := fun e => h e.symm
      simp [GoMap.get?, h, h2, ih]

theorem GoMap.get?_of_mem {α : Type} (m : GoMap α) (hm : GoMap.WF m) (key : String) (v : α)
    (h : (key, v) ∈ m) : GoMap.get? m key = some v := by
  induction m with
  | nil => simp at h
  | cons e rest ih =>
    obtain ⟨k, w⟩ := e
    have hnd : k ∉ rest.map Prod.fst ∧ (rest.map Prod.fst).Nodup := by
      simpa [GoMap.WF] using hm
    rcases List.mem_cons.mp h with h1 | h1
    · cases h1
      simp [GoMap.get?]
    · have hk : k ≠ key := by
        intro e
        apply hnd.1
        rw [e]
        exact List.mem_map.mpr ⟨(key, v), h1, rfl⟩
      simp [GoMap.get?, hk, ih hnd.2 h1]

theorem GoMap.mem_of_get? {α : Type} (m : GoMap α) (key : String) (v : α)
    (h : GoMap.get? m key = some v) : (key, v) ∈ m := by
  induction m with
  | nil => simp [GoMap.get?] at h
  | cons e rest ih =>
    obtain ⟨k, w⟩ := e
    by_cases hk : k = key
    · simp [GoMap.get?, hk] at h
      simp [hk, h]
    · simp [GoMap.get?, hk] at h
      exact List.mem_cons_of_mem _ (ih h)

/-- Lookup does not depend on the order in which a `range` visits the entries. -/
theorem GoMap.get?_perm {α : Type} (m1 m2 : GoMap α) (h1 : GoMap.WF m1) (hp : m1.Perm m2)
    (key : String) : GoMap.get? m1 key = GoMap.get? m2 key := by
  have h2 : GoMap.WF m2 := (List.Perm.nodup_iff (List.Perm.map Prod.fst hp)).mp h1
  cases hg : GoMap.get? m2 key with
  | some v =>
    exact GoMap.get?_of_mem m1 h1 key v (hp.mem_iff.mpr (GoMap.mem_of_get? m2 key v hg))
  | none =>
    cases hg1 : GoMap.get? m1 key with
    | none => rfl
    | some v =>
      have := GoMap.get?_of_mem m2 h2 key v (hp.mem_iff.mp (GoMap.mem_of_get? m1 key v hg1))
      rw [hg] at this
      cases this

theorem GoMap.delete_cons {α : Type} (k1 : String) (w : α) (rest : GoMap α) (key : String) :
    GoMap.delete ((k1, w) :: rest) key =
      if k1 = key then GoMap.delete rest key else (k1, w) :: GoMap.delete rest key := by
  by_cases h : k1 = key <;> simp [GoMap.delete, List.filter_cons, h]

theorem GoMap.get?_delete {α : Type} (m : GoMap α) (key k : String) :
    GoMap.get? (GoMap.delete m key) k = if k = key then none else GoMap.get? m k := by
  induction m with
  | nil => simp [GoMap.delete, GoMap.get?]
  | cons e rest ih =>
    obtain ⟨k1, w⟩ := e
    rw [GoMap.delete_cons]
    by_cases h1 : k1 = key
    · rw [if_pos h1, ih]
      by_cases h2 : k = key
      · simp [h2]
      · have h3 : ¬ k1 = k := fun e => h2 (e.symm.trans h1)
        simp [h2, h3, GoMap.get?]
    · rw [if_neg h1]
      by_cases h4 : k1 = k
      · have h2 : ¬ k = key := fun e => h1 (h4.trans e)
        simp [h2, h4, GoMap.get?]
      · simp [h4, GoMap.get?, ih]

theorem GoMap.get?_set {α : Type} (m : GoMap α) (key k : String) (v : α) :
    GoMap.get? (GoMap.set m key v) k = if k = key then some v else GoMap.get? m k := by
  by_cases h : k = key
  · simp [GoMap.set, GoMap.get?, h]
  · have h2 : ¬ key = k := fun e => h e.symm
    simp [GoMap.set, GoMap.get?, h, h2, GoMap.get?_delete]

/-! ## The tag diff -/

theorem Update.innerLoop_eq (stateKey stateValue : String) (planTags : GoMap String)
    (addedTags : List Tag) :
    Update.innerLoop stateKey stateValue planTags addedTags =
      match GoMap.get? planTags stateKey with
      | none => (false, addedTags)
      | some planValue =>
        (true, if stateValue ≠ planValue then addedTags ++ [⟨stateKey, planValue⟩]
          else addedTags) := by
  induction planTags with
  | nil => simp [Update.innerLoop, GoMap.get?]
  | cons e rest ih =>
    obtain ⟨k, w⟩ := e
    by_cases h : k = stateKey
    · simp [Update.innerLoop, GoMap.get?, h]
    · simp [Update.innerLoop, GoMap.get?, h, ih]

/-- The inner loop gives the same result in whatever order it visits `planTags`. -/
theorem Update.innerLoop_perm (stateKey stateValue : String) (p1 p2 : GoMap String)
    (h1 : GoMap.WF p1) (hp : p1.Perm p2) (addedTags : List Tag) :
    Update.innerLoop stateKey stateValue p1 addedTags =
      Update.innerLoop stateKey stateValue p2 addedTags := by
  rw [Update.innerLoop_eq, Update.innerLoop_eq, GoMap.get?_perm p1 p2 h1 hp]

/-- The loop over `stateTags` gives the same result in whatever order its inner loop
visits `planTags`. -/
theorem Update.stateLoop_perm (p1 p2 : GoMap String) (h1 : GoMap.WF p1) (hp : p1.Perm p2)
    (stateTags : GoMap String) (acc : List String × List Tag) :
    Update.stateLoop p1 stateTags acc = Update.stateLoop p2 stateTags acc := by
  induction stateTags generalizing acc with
  | nil => rfl
  | cons e rest ih =>
    obtain ⟨sk, sv⟩ := e
    obtain ⟨removedTags, addedTags⟩ := acc
    simp only [Update.stateLoop, Update.innerLoop_perm sk sv p1 p2 h1 hp, ih]

theorem Update.stateLoop_removed (planTags stateTags : GoMap String)
    (acc : List String × List Tag) (k : String) :
    k ∈ (Update.stateLoop planTags stateTags acc).1 ↔
      k ∈ acc.1 ∨ (k ∈ stateTags.map Prod.fst ∧ GoMap.get? planTags k = none) := by
  induction stateTags generalizing acc with
  | nil => simp [Update.stateLoop]
  | cons e rest ih =>
    obtain ⟨sk, sv⟩ := e
    obtain ⟨removedTags, addedTags⟩ := acc
    simp only [Update.stateLoop, ih, Update.innerLoop_eq]
    cases hg : GoMap.get? planTags sk with
    | none =>
      simp only [Bool.false_eq_true, if_false, List.map_cons, List.mem_cons, List.mem_append,
        List.not_mem_nil, or_false]
      constructor
      · rintro ((h | h) | h)
        · exact Or.inl h
        · exact Or.inr ⟨Or.inl h, by rw [h]; exact hg⟩
        · exact Or.inr ⟨Or.inr h.1, h.2⟩
      · rintro (h | ⟨h | h, h2⟩)
        · exact Or.inl (Or.inl h)
        · exact Or.inl (Or.inr h)
        · exact Or.inr ⟨h, h2⟩
    | some pv =>
      simp only [if_true, List.map_cons, List.mem_cons]
      constructor
      · rintro (h | h)
        · exact Or.inl h
        · exact Or.inr ⟨Or.inr h.1, h.2⟩
      · rintro (h | ⟨h | h, h2⟩)
        · exact Or.inl h
        · rw [h, hg] at h2
          cases h2
        · exact Or.inr ⟨h, h2⟩

theorem Update.stateLoop_added (planTags stateTags : GoMap String)
    (acc : List String × List Tag) (k v : String) :
    (⟨k, v⟩ : Tag) ∈ (Update.stateLoop planTags stateTags acc).2 ↔
      (⟨k, v⟩ : Tag) ∈ acc.2 ∨
        (∃ sv, (k, sv) ∈ stateTags ∧ sv ≠ v ∧ GoMap.get? planTags k = some v) := by
  induction stateTags generalizing acc with
  | nil => simp [Update.stateLoop]
  | cons e rest ih =>
    obtain ⟨sk, sv⟩ := e
    obtain ⟨removedTags, addedTags⟩ := acc
    simp only [Update.stateLoop, ih, Update.innerLoop_eq]
    cases hg : GoMap.get? planTags sk with
    | none =>
      simp only [List.mem_cons, Prod.mk.injEq]
      constructor
      · rintro (h | ⟨x, hx, h2, h3⟩)
        · exact Or.inl h
        · exact Or.inr ⟨x, Or.inr hx, h2, h3⟩
      · rintro (h | ⟨x, ⟨hx1, hx2⟩ | hx, h2, h3⟩)
        · exact Or.inl h
        · rw [hx1, hg] at h3
          cases h3
        · exact Or.inr ⟨x, hx, h2, h3⟩
    | some pv =>
      simp only [List.mem_cons, Prod.mk.injEq]
      by_cases hne : sv = pv
      · simp only [hne, ne_eq, not_true_eq_false, if_false]
        constructor
        · rintro (h | ⟨x, hx, h2, h3⟩)
          · exact Or.inl h
          · exact Or.inr ⟨x, Or.inr hx, h2, h3⟩
        · rintro (h | ⟨x, ⟨hx1, hx2⟩ | hx, h2, h3⟩)
          · exact Or.inl h
          · rw [hx1, hg] at h3
            cases h3
            exact absurd hx2 h2
          · exact Or.inr ⟨x, hx, h2, h3⟩
      · simp only [ne_eq, hne, not_false_eq_true, if_true, List.mem_append,
          List.mem_cons, List.not_mem_nil, or_false, Tag.mk.injEq]
        constructor
        · rintro ((h | ⟨h1, h2⟩) | ⟨x, hx, h2, h3⟩)
          · exact Or.inl h
          · refine Or.inr ⟨sv, Or.inl ⟨h1, rfl⟩, ?_, ?_⟩
            · rw [h2]; exact hne
            · rw [h1, h2]; exact hg
          · exact Or.inr ⟨x, Or.inr hx, h2, h3⟩
        · rintro (h | ⟨x, ⟨hx1, hx2⟩ | hx, h2, h3⟩)
          · exact Or.inl (Or.inl h)
          · rw [hx1, hg] at h3
            cases h3
            exact Or.inl (Or.inr ⟨hx1, rfl⟩)
          · exact Or.inr ⟨x, hx, h2, h3⟩

theorem Update.planLoop_mem (stateTags planTags : GoMap String) (addedTags : List Tag)
    (k v : String) :
    (⟨k, v⟩ : Tag) ∈ Update.planLoop stateTags planTags addedTags ↔
      (⟨k, v⟩ : Tag) ∈ addedTags ∨ ((k, v) ∈ planTags ∧ GoMap.get? stateTags k = none) := by
  induction planTags generalizing addedTags with
  | nil => simp [Update.planLoop]
  | cons e rest ih =>
    obtain ⟨pk, pv⟩ := e
    simp only [Update.planLoop, ih]
    cases hg : GoMap.get? stateTags pk with
    | none =>
      simp only [List.mem_append, Tag.mk.injEq, List.mem_cons, List.not_mem_nil, or_false,
        Prod.mk.injEq]
      constructor
      · rintro ((h | ⟨h1, h2⟩) | ⟨h1, h2⟩)
        · exact Or.inl h
        · exact Or.inr ⟨Or.inl ⟨h1, h2⟩, by rw [h1]; exact hg⟩
        · exact Or.inr ⟨Or.inr h1, h2⟩
      · rintro (h | ⟨⟨h1, h2⟩ | h1, h3⟩)
        · exact Or.inl (Or.inl h)
        · exact Or.inl (Or.inr ⟨h1, h2⟩)
        · exact Or.inr ⟨h1, h3⟩
    | some ov =>
      simp only [List.mem_cons, Prod.mk.injEq]
      constructor
      · rintro (h | ⟨h1, h2⟩)
        · exact Or.inl h
        · exact Or.inr ⟨Or.inr h1, h2⟩
      · rintro (h | ⟨⟨h1, h2⟩ | h1, h3⟩)
        · exact Or.inl h
        · rw [h1, hg] at h3
          cases h3
        · exact Or.inr ⟨h1, h3⟩

/-- Membership in `removedTags`, by lookups only. -/
theorem Update.mem_removedTags (observed desired : GoMap String) (k : String) :
    k ∈ (Update.tagDiff observed desired).1 ↔
      k ∈ observed.map Prod.fst ∧ k ∉ desired.map Prod.fst := by
  simp only [Update.tagDiff, Update.stateLoop_removed, GoMap.get?_eq_none_iff]
  simp

/-- Membership in `addedTags`, by lookups only. -/
theorem Update.mem_addedTags (observed desired : GoMap String) (ho : GoMap.WF observed)
    (hd : GoMap.WF desired) (k v : String) :
    (⟨k, v⟩ : Tag) ∈ (Update.tagDiff observed desired).2 ↔
      GoMap.get? desired k = some v ∧ GoMap.get? observed k ≠ some v := by
  simp only [Update.tagDiff, Update.planLoop_mem, Update.stateLoop_added]
  constructor
  · rintro ((h | ⟨sv, h1, h2, h3⟩) | ⟨h1, h2⟩)
    · simp at h
    · refine ⟨h3, ?_⟩
      rw [GoMap.get?_of_mem observed ho k sv h1]
      intro e
      cases e
      exact h2 rfl
    · refine ⟨GoMap.get?_of_mem desired hd k v h1, ?_⟩
      rw [h2]
      simp
  · rintro ⟨h1, h2⟩
    cases hg : GoMap.get? observed k with
    | none => exact Or.inr ⟨GoMap.mem_of_get? desired k v h1, rfl⟩
    | some ov =>
      refine Or.inl (Or.inr ⟨ov, GoMap.mem_of_get? observed k ov hg, ?_, h1⟩)
      intro e
      apply h2
      rw [hg, e]

theorem GoMap.get?_foldl_delete (removedTags : List String) (m : GoMap String) (k : String) :
    GoMap.get? (removedTags.foldl (fun m k => GoMap.delete m k) m) k =
      if k ∈ removedTags then none else GoMap.get? m k := by
  induction removedTags generalizing m with
  | nil => simp
  | cons r rest ih =>
    simp only [List.foldl_cons, ih, GoMap.get?_delete, List.mem_cons]
    by_cases h1 : k ∈ rest
    · simp [h1]
    · by_cases h2 : k = r <;> simp [h1, h2]

theorem GoMap.get?_foldl_set_of_not_mem (addedTags : List Tag) (m : GoMap String) (k : String)
    (h : ∀ v, (⟨k, v⟩ : Tag) ∉ addedTags) :
    GoMap.get? (addedTags.foldl (fun m t => GoMap.set m t.Key t.Value) m) k =
      GoMap.get? m k := by
  induction addedTags generalizing m with
  | nil => simp
  | cons t rest ih =>
    obtain ⟨tk, tv⟩ := t
    have hrest : ∀ v, (⟨k, v⟩ : Tag) ∉ rest := fun v hv => h v (List.mem_cons_of_mem _ hv)
    have hk : k ≠ tk := by
      intro e
      apply h tv
      rw [e]
      exact List.mem_cons_self _ _
    simp only [List.foldl_cons, ih _ hrest, GoMap.get?_set, if_neg hk]

theorem GoMap.get?_foldl_set_of_mem (addedTags : List Tag) (m : GoMap String) (k v : String)
    (hmem : (⟨k, v⟩ : Tag) ∈ addedTags)
    (hfun : ∀ w, (⟨k, w⟩ : Tag) ∈ addedTags → w = v) :
    GoMap.get? (addedTags.foldl (fun m t => GoMap.set m t.Key t.Value) m) k = some v := by
  induction addedTags generalizing m with
  | nil => simp at hmem
  | cons t rest ih =>
    obtain ⟨tk, tv⟩ := t
    simp only [List.foldl_cons]
    by_cases hr : (⟨k, v⟩ : Tag) ∈ rest
    · exact ih _ hr (fun w hw => hfun w (List.mem_cons_of_mem _ hw))
    · have hrest : ∀ w, (⟨k, w⟩ : Tag) ∉ rest := by
        intro w hw
        have e := hfun w (List.mem_cons_of_mem _ hw)
        rw [e] at hw
        exact hr hw
      have hhead : (⟨k, v⟩ : Tag) = ⟨tk, tv⟩ := by
        rcases List.mem_cons.mp hmem with e | e
        · exact e
        · exact absurd e hr
      cases hhead
      rw [GoMap.get?_foldl_set_of_not_mem rest _ k hrest, GoMap.get?_set]
      simp

/-- Equal mappings have an empty diff. -/
theorem Update.tagDiff_eq_nil (observed desired : GoMap String) (ho : GoMap.WF observed)
    (hd : GoMap.WF desired) (heq : ∀ k, GoMap.get? observed k = GoMap.get? desired k) :
    Update.tagDiff observed desired = ([], []) := by
  have h1 : (Update.tagDiff observed desired).1 = [] := by
    apply List.eq_nil_iff_forall_not_mem.mpr
    intro k hk
    have h := (Update.mem_removedTags observed desired k).mp hk
    have h2 := (GoMap.get?_eq_none_iff desired k).mpr h.2
    rw [← heq k] at h2
    exact (GoMap.get?_eq_none_iff observed k).mp h2 h.1
  have h2 : (Update.tagDiff observed desired).2 = [] := by
    apply List.eq_nil_iff_forall_not_mem.mpr
    rintro ⟨k, v⟩ hk
    have h := (Update.mem_addedTags observed desired ho hd k v).mp hk
    exact h.2 ((heq k).trans h.1)
  exact Prod.ext h1 h2

/-! ## Properties of the tag diff -/

/-- C1: for Go maps `observed` and `desired`, deleting from `observed` every key of
`removedTags` and then setting every pair of `addedTags`, both as computed by the
tag-diff loops of `Update`, gives a mapping equal to `desired`: every key looks up
the same in both. -/
theorem Update_tagDiff_apply (observed desired : GoMap String) (ho : GoMap.WF observed)
    (hd : GoMap.WF desired) (k : String) :
    GoMap.get? (applyTagDiff observed (Update.tagDiff observed desired).1
      (Update.tagDiff observed desired).2) k = GoMap.get? desired k := by
  unfold applyTagDiff
  cases hdk : GoMap.get? desired k with
  | none =>
    have hnot : ∀ v, (⟨k, v⟩ : Tag) ∉ (Update.tagDiff observed desired).2 := by
      intro v hv
      have := ((Update.mem_addedTags observed desired ho hd k v).mp hv).1
      rw [hdk] at this
      cases this
    rw [GoMap.get?_foldl_set_of_not_mem _ _ k hnot, GoMap.get?_foldl_delete]
    have hkd : k ∉ desired.map Prod.fst := (GoMap.get?_eq_none_iff desired k).mp hdk
    by_cases hko : k ∈ observed.map Prod.fst
    · rw [if_pos ((Update.mem_removedTags observed desired k).mpr ⟨hko, hkd⟩)]
    · have hn : k ∉ (Update.tagDiff observed desired).1 := fun h =>
        hko ((Update.mem_removedTags observed desired k).mp h).1
      rw [if_neg hn]
      exact (GoMap.get?_eq_none_iff observed k).mpr hko
  | some v =>
    by_cases hov : GoMap.get? observed k = some v
    · have hnot : ∀ w, (⟨k, w⟩ : Tag) ∉ (Update.tagDiff observed desired).2 := by
        intro w hw
        have h := (Update.mem_addedTags observed desired ho hd k w).mp hw
        rw [hdk] at h
        have e : v = w := Option.some.inj h.1
        rw [← e] at h
        exact h.2 hov
      have hn : k ∉ (Update.tagDiff observed desired).1 := by
        intro h
        have h2 := ((Update.mem_removedTags observed desired k).mp h).2
        have h3 := (GoMap.get?_eq_none_iff desired k).mpr h2
        rw [hdk] at h3
        cases h3
      rw [GoMap.get?_foldl_set_of_not_mem _ _ k hnot, GoMap.get?_foldl_delete, if_neg hn, hov]
    · have hmem : (⟨k, v⟩ : Tag) ∈ (Update.tagDiff observed desired).2 :=
        (Update.mem_addedTags observed desired ho hd k v).mpr ⟨hdk, hov⟩
      have hfun : ∀ w, (⟨k, w⟩ : Tag) ∈ (Update.tagDiff observed desired).2 → w = v := by
        intro w hw
        have h := ((Update.mem_addedTags observed desired ho hd k w).mp hw).1
        rw [hdk] at h
        exact (Option.some.inj h).symm
      exact GoMap.get?_foldl_set_of_mem _ _ k v hmem hfun

/-- Witness of C1: observed `a:1, b:2`, desired `a:9, c:3`, looked up at `a`. -/
theorem Update_tagDiff_apply_witness :
    GoMap.WF [("a", "1"), ("b", "2")] ∧ GoMap.WF [("a", "9"), ("c", "3")] ∧
    GoMap.get? (applyTagDiff [("a", "1"), ("b", "2")]
      (Update.tagDiff [("a", "1"), ("b", "2")] [("a", "9"), ("c", "3")]).1
      (Update.tagDiff [("a", "1"), ("b", "2")] [("a", "9"), ("c", "3")]).2) "a" =
      GoMap.get? [("a", "9"), ("c", "3")] "a" :=
  ⟨by decide, by decide,
    Update_tagDiff_apply [("a", "1"), ("b", "2")] [("a", "9"), ("c", "3")]
      (by decide) (by decide) "a"⟩

/-- C2: for Go maps `observed` and `desired`, a key is in `removedTags` exactly when
it is a key of `observed` and not a key of `desired`, and a pair `(k, v)` is in
`addedTags` exactly when `desired[k] = v` and either `k` is not a key of `observed`
or `observed[k]` differs from `v`. -/
theorem Update_tagDiff_spec (observed desired : GoMap String) (ho : GoMap.WF observed)
    (hd : GoMap.WF desired) :
    (∀ k, k ∈ (Update.tagDiff observed desired).1 ↔
      (k ∈ observed.map Prod.fst ∧ k ∉ desired.map Prod.fst)) ∧
    (∀ k v, (⟨k, v⟩ : Tag) ∈ (Update.tagDiff observed desired).2 ↔
      (GoMap.get? desired k = some v ∧
        (k ∉ observed.map Prod.fst ∨ ∃ ov, GoMap.get? observed k = some ov ∧ ov ≠ v))) := by
  refine ⟨Update.mem_removedTags observed desired, ?_⟩
  intro k v
  rw [Update.mem_addedTags observed desired ho hd k v]
  constructor
  · rintro ⟨h1, h2⟩
    refine ⟨h1, ?_⟩
    cases hg : GoMap.get? observed k with
    | none => exact Or.inl ((GoMap.get?_eq_none_iff observed k).mp hg)
    | some ov =>
      refine Or.inr ⟨ov, rfl, ?_⟩
      intro e
      apply h2
      rw [hg, e]
  · rintro ⟨h1, h2 | ⟨ov, h2, h3⟩⟩
    · refine ⟨h1, ?_⟩
      rw [(GoMap.get?_eq_none_iff observed k).mpr h2]
      simp
    · refine ⟨h1, ?_⟩
      rw [h2]
      intro e
      exact h3 (Option.some.inj e)

/-- Witness of C2: observed `a:1, b:2` and desired `a:9, c:3` give `removedTags = [b]`
and `addedTags = [a:9, c:3]`. -/
theorem Update_tagDiff_spec_witness :
    GoMap.WF [("a", "1"), ("b", "2")] ∧ GoMap.WF [("a", "9"), ("c", "3")] ∧
    Update.tagDiff [("a", "1"), ("b", "2")] [("a", "9"), ("c", "3")] =
      (["b"], [⟨"a", "9"⟩, ⟨"c", "3"⟩]) ∧
    ((∀ k, k ∈ (Update.tagDiff [("a", "1"), ("b", "2")] [("a", "9"), ("c", "3")]).1 ↔
      (k ∈ ([("a", "1"), ("b", "2")] : GoMap String).map Prod.fst ∧
        k ∉ ([("a", "9"), ("c", "3")] : GoMap String).map Prod.fst)) ∧
    (∀ k v, (⟨k, v⟩ : Tag) ∈
        (Update.tagDiff [("a", "1"), ("b", "2")] [("a", "9"), ("c", "3")]).2 ↔
      (GoMap.get? [("a", "9"), ("c", "3")] k = some v ∧
        (k ∉ ([("a", "1"), ("b", "2")] : GoMap String).map Prod.fst ∨
          ∃ ov, GoMap.get? [("a", "1"), ("b", "2")] k = some ov ∧ ov ≠ v)))) :=
  ⟨by decide, by decide, by decide,
    Update_tagDiff_spec [("a", "1"), ("b", "2")] [("a", "9"), ("c", "3")]
      (by decide) (by decide)⟩

/-- C3: when Go maps `observed` and `desired` hold the same mapping (in particular
when both are the same map `X`), `removedTags` and `addedTags` are both empty; and
in general a key with the same value in `observed` and `desired` is neither in
`removedTags` nor the key of a pair of `addedTags`. -/
theorem Update_tagDiff_unchanged (observed desired : GoMap String) (ho : GoMap.WF observed)
    (hd : GoMap.WF desired) :
    ((∀ k, GoMap.get? observed k = GoMap.get? desired k) →
      Update.tagDiff observed desired = ([], [])) ∧
    (∀ k v, GoMap.get? observed k = some v → GoMap.get? desired k = some v →
      k ∉ (Update.tagDiff observed desired).1 ∧
      ∀ w, (⟨k, w⟩ : Tag) ∉ (Update.tagDiff observed desired).2) := by
  constructor
  · intro heq
    exact Update.tagDiff_eq_nil observed desired ho hd heq
  · intro k v hov hdv
    constructor
    · intro hk
      have h := (Update.mem_removedTags observed desired k).mp hk
      have h2 := (GoMap.get?_eq_none_iff desired k).mpr h.2
      rw [hdv] at h2
      cases h2
    · intro w hw
      have h := (Update.mem_addedTags observed desired ho hd k w).mp hw
      rw [hdv] at h
      have e : v = w := Option.some.inj h.1
      rw [← e] at h
      exact h.2 hov

/-- Witness of C3: the map `a:1, b:2` against itself. -/
theorem Update_tagDiff_unchanged_witness :
    GoMap.WF [("a", "1"), ("b", "2")] ∧
    ((∀ k, GoMap.get? [("a", "1"), ("b", "2")] k = GoMap.get? [("a", "1"), ("b", "2")] k) →
      Update.tagDiff [("a", "1"), ("b", "2")] [("a", "1"), ("b", "2")] = ([], [])) ∧
    (∀ k v, GoMap.get? [("a", "1"), ("b", "2")] k = some v →
      GoMap.get? [("a", "1"), ("b", "2")] k = some v →
      k ∉ (Update.tagDiff [("a", "1"), ("b", "2")] [("a", "1"), ("b", "2")]).1 ∧
      ∀ w, (⟨k, w⟩ : Tag) ∉
        (Update.tagDiff [("a", "1"), ("b", "2")] [("a", "1"), ("b", "2")]).2) :=
  ⟨by decide,
    Update_tagDiff_unchanged [("a", "1"), ("b", "2")] [("a", "1"), ("b", "2")]
      (by decide) (by decide)⟩

/-! ## Diagnostics -/

theorem Diagnostics.mem_Append (ds es : Diagnostics) (d : Diagnostic) :
    d ∈ Diagnostics.Append ds es ↔ d ∈ ds ∨ d ∈ es := by
  induction es generalizing ds with
  | nil => simp [Diagnostics.Append]
  | cons e rest ih =>
    simp only [Diagnostics.Append, ih, List.mem_cons]
    by_cases h : e ∈ ds
    · rw [if_pos h]
      constructor
      · rintro (h1 | h1)
        · exact Or.inl h1
        · exact Or.inr (Or.inr h1)
      · rintro (h1 | h1 | h1)
        · exact Or.inl h1
        · rw [h1]; exact Or.inl h
        · exact Or.inr h1
    · rw [if_neg h]
      simp only [List.mem_append, List.mem_cons, List.not_mem_nil, or_false]
      constructor
      · rintro ((h1 | h1) | h1)
        · exact Or.inl h1
        · exact Or.inr (Or.inl h1)
        · exact Or.inr (Or.inr h1)
      · rintro (h1 | h1 | h1)
        · exact Or.inl (Or.inl h1)
        · exact Or.inl (Or.inr h1)
        · exact Or.inr h1

theorem Diagnostics.HasError_iff (ds : Diagnostics) :
    Diagnostics.HasError ds = true ↔ ∃ d ∈ ds, d.severity = Severity.error := by
  simp [Diagnostics.HasError]

theorem Diagnostics.HasError_Append (ds es : Diagnostics) :
    Diagnostics.HasError (Diagnostics.Append ds es) =
      (Diagnostics.HasError ds || Diagnostics.HasError es) := by
  rw [Bool.eq_iff_iff]
  simp only [Bool.or_eq_true, Diagnostics.HasError_iff, Diagnostics.mem_Append]
  constructor
  · rintro ⟨d, h1 | h1, h2⟩
    · exact Or.inl ⟨d, h1, h2⟩
    · exact Or.inr ⟨d, h1, h2⟩
  · rintro (⟨d, h1, h2⟩ | ⟨d, h1, h2⟩)
    · exact ⟨d, Or.inl h1, h2⟩
    · exact ⟨d, Or.inr h1, h2⟩

theorem Diagnostics.HasError_AddError (ds : Diagnostics) (summary detail : String) :
    Diagnostics.HasError (Diagnostics.AddError ds summary detail) = true := by
  rw [Diagnostics.AddError, Diagnostics.HasError_Append]
  simp [Diagnostics.HasError]

theorem Diagnostics.mem_AddError (ds : Diagnostics) (summary detail : String) :
    (⟨Severity.error, summary, detail⟩ : Diagnostic) ∈
      Diagnostics.AddError ds summary detail := by
  rw [Diagnostics.AddError, Diagnostics.mem_Append]
  exact Or.inr (List.mem_cons_self _ _)

theorem Diagnostics.HasError_Append_nil (ds : Diagnostics) :
    Diagnostics.HasError (Diagnostics.Append [] ds) = Diagnostics.HasError ds := by
  rw [Diagnostics.HasError_Append]
  simp [Diagnostics.HasError]

/-! ## Properties of Read -/

/-- C4: for every held state record that decodes, when the list-by-id call succeeds
with an empty list or fails, `Read` reports an error and never calls
`resp.State.Set`, so the record the caller holds stays as it is; with an empty
list the error is "Environment not found". -/
theorem Read_not_found {σ : Type} (client : AWSCloud9Client σ) (world : σ) (req : ReadRequest)
    (hdec : req.State.diags.HasError = false)
    (h : (client.GetSSHEnvironments world req.State.value.ID.ValueString).1 = Except.ok [] ∨
      ∃ err, (client.GetSSHEnvironments world req.State.value.ID.ValueString).1
        = Except.error err) :
    (Read client world req).State = none ∧
    (Read client world req).Diagnostics.HasError = true ∧
    (Read client world req).calls.map CallRecord.call =
      [RemoteCall.GetSSHEnvironments req.State.value.ID.ValueString] ∧
    ((client.GetSSHEnvironments world req.State.value.ID.ValueString).1 = Except.ok [] →
      (⟨Severity.error, "Environment not found",
          "Environment not found: " ++ req.State.value.ID.ValueString⟩ : Diagnostic) ∈
        (Read client world req).Diagnostics) := by
  have hd : Diagnostics.HasError (Diagnostics.Append [] req.State.diags) = false := by
    rw [Diagnostics.HasError_Append_nil]; exact hdec
  unfold Read
  simp only [hd, Bool.false_eq_true, if_false]
  rcases hg : client.GetSSHEnvironments world req.State.value.ID.ValueString with ⟨res, w1⟩
  rw [hg] at h
  simp only at h
  rcases h with h | ⟨err, h⟩
  · subst h
    exact ⟨rfl, Diagnostics.HasError_AddError _ _ _, rfl,
      fun _ => Diagnostics.mem_AddError _ _ _⟩
  · subst h
    refine ⟨rfl, Diagnostics.HasError_AddError _ _ _, rfl, ?_⟩
    intro h
    cases h

/-- Witness of C4: the held scenario record, read against a remote side that finds
nothing. -/
theorem Read_not_found_witness :
    Diagnostics.HasError [] = false ∧
    (emptyClient.GetSSHEnvironments () scenarioState.ID.ValueString).1 = Except.ok [] ∧
    (Read emptyClient () ⟨⟨[], scenarioState⟩⟩).State = none ∧
    (Read emptyClient () ⟨⟨[], scenarioState⟩⟩).Diagnostics =
      [⟨Severity.error, "Environment not found", "Environment not found: env-1"⟩] :=
  ⟨rfl, rfl, (Read_not_found emptyClient () ⟨⟨[], scenarioState⟩⟩ rfl (Or.inl rfl)).1,
    by decide⟩

/-! ## Properties of Update -/

/-- C7: every run of `Update` whose records decode issues the scalar update, then,
only if it returned without error, the untag call, then, only if that returned
without error, the tag call; a run that stops at a failing call reports an error
and never calls `resp.State.Set`; the desired record is stored exactly when all
three calls succeed; no other call is issued.  A run whose records do not decode
issues no call, reports an error and stores nothing. -/
theorem Update_abort_on_first_error {σ : Type} (client : AWSCloud9Client σ) (world : σ)
    (req : UpdateRequest) :
    let plan := req.Plan.value
    let decodeError := (req.Plan.diags.HasError ||
      Diagnostics.HasError (plan.Tags.ElementsAs).1 ||
      req.State.diags.HasError ||
      Diagnostics.HasError (req.State.value.Tags.ElementsAs).1)
    let diff := Update.tagDiff (req.State.value.Tags.ElementsAs).2 (plan.Tags.ElementsAs).2
    let arn := plan.Arn.ValueString
    let update := RemoteCall.UpdateEnvironment (Update.updatedEnv plan)
    let untag := RemoteCall.UntagResource arn diff.1
    let tag := RemoteCall.TagResource arn diff.2
    let r1 := client.UpdateEnvironment world (Update.updatedEnv plan)
    let r2 := client.UntagResource r1.2 arn diff.1
    let r3 := client.TagResource r2.2 arn diff.2
    let out := Update client world req
    (decodeError = true ∧ out.calls = [] ∧ out.State = none ∧
      out.Diagnostics.HasError = true) ∨
    (decodeError = false ∧ ∃ e, r1.1 = some e ∧ out.calls = [⟨update, some e⟩] ∧
      out.State = none ∧ out.Diagnostics.HasError = true) ∨
    (decodeError = false ∧ ∃ e, r1.1 = none ∧ r2.1 = some e ∧
      out.calls = [⟨update, none⟩, ⟨untag, some e⟩] ∧
      out.State = none ∧ out.Diagnostics.HasError = true) ∨
    (decodeError = false ∧ ∃ e, r1.1 = none ∧ r2.1 = none ∧ r3.1 = some e ∧
      out.calls = [⟨update, none⟩, ⟨untag, none⟩, ⟨tag, some e⟩] ∧
      out.State = none ∧ out.Diagnostics.HasError = true) ∨
    (decodeError = false ∧ r1.1 = none ∧ r2.1 = none ∧ r3.1 = none ∧
      out.calls = [⟨update, none⟩, ⟨untag, none⟩, ⟨tag, none⟩] ∧
      out.State = some plan ∧ out.Diagnostics.HasError = false) := by
  intro plan decodeError diff arn update untag tag r1 r2 r3 out
  simp only [out, r1, r2, r3, update, untag, tag, arn, diff, decodeError, plan]
  unfold Update
  dsimp only
  by_cases h1 : Diagnostics.HasError (Diagnostics.Append [] req.Plan.diags) = true
  · rw [if_pos h1]
    refine Or.inl ⟨?_, rfl, rfl, h1⟩
    rw [Diagnostics.HasError_Append_nil] at h1
    rw [h1]
    rfl
  rw [if_neg h1]
  by_cases h2 : Diagnostics.HasError (Diagnostics.Append (Diagnostics.Append [] req.Plan.diags)
      req.Plan.value.Tags.ElementsAs.1) = true
  · rw [if_pos h2]
    refine Or.inl ⟨?_, rfl, rfl, h2⟩
    rw [Diagnostics.HasError_Append, Diagnostics.HasError_Append_nil] at h2
    rw [h2]
    rfl
  rw [if_neg h2]
  by_cases h3 : Diagnostics.HasError (Diagnostics.Append (Diagnostics.Append
      (Diagnostics.Append [] req.Plan.diags) req.Plan.value.Tags.ElementsAs.1)
      req.State.diags) = true
  · rw [if_pos h3]
    refine Or.inl ⟨?_, rfl, rfl, h3⟩
    rw [Diagnostics.HasError_Append, Diagnostics.HasError_Append,
      Diagnostics.HasError_Append_nil] at h3
    rw [h3]
    rfl
  rw [if_neg h3]
  by_cases h4 : Diagnostics.HasError (Diagnostics.Append (Diagnostics.Append
      (Diagnostics.Append (Diagnostics.Append [] req.Plan.diags)
      req.Plan.value.Tags.ElementsAs.1) req.State.diags)
      req.State.value.Tags.ElementsAs.1) = true
  · rw [if_pos h4]
    refine Or.inl ⟨?_, rfl, rfl, h4⟩
    rw [Diagnostics.HasError_Append, Diagnostics.HasError_Append,
      Diagnostics.HasError_Append, Diagnostics.HasError_Append_nil] at h4
    exact h4
  rw [if_neg h4]
  have hdec : (req.Plan.diags.HasError ||
      Diagnostics.HasError req.Plan.value.Tags.ElementsAs.1 ||
      req.State.diags.HasError ||
      Diagnostics.HasError req.State.value.Tags.ElementsAs.1) = false := by
    rw [Diagnostics.HasError_Append, Diagnostics.HasError_Append,
      Diagnostics.HasError_Append, Diagnostics.HasError_Append_nil] at h4
    exact Bool.eq_false_iff.mpr h4
  rcases hu : client.UpdateEnvironment world (Update.updatedEnv req.Plan.value) with ⟨e1, w1⟩
  cases e1 with
  | some e =>
    dsimp only
    refine Or.inr (Or.inl ⟨hdec, e, rfl, rfl, rfl, ?_⟩)
    exact Diagnostics.HasError_AddError _ _ _
  | none =>
    dsimp only
    rcases hv : client.UntagResource w1 req.Plan.value.Arn.ValueString
      (Update.tagDiff req.State.value.Tags.ElementsAs.2
        req.Plan.value.Tags.ElementsAs.2).1 with ⟨e2, w2⟩
    cases e2 with
    | some e =>
      dsimp only
      refine Or.inr (Or.inr (Or.inl ⟨hdec, e, rfl, rfl, rfl, rfl, ?_⟩))
      exact Diagnostics.HasError_AddError _ _ _
    | none =>
      dsimp only
      rcases hw : client.TagResource w2 req.Plan.value.Arn.ValueString
        (Update.tagDiff req.State.value.Tags.ElementsAs.2
          req.Plan.value.Tags.ElementsAs.2).2 with ⟨e3, w3⟩
      cases e3 with
      | some e =>
        dsimp only
        refine Or.inr (Or.inr (Or.inr (Or.inl ⟨hdec, e, rfl, rfl, rfl, rfl, rfl, ?_⟩)))
        exact Diagnostics.HasError_AddError _ _ _
      | none =>
        dsimp only
        refine Or.inr (Or.inr (Or.inr (Or.inr ⟨hdec, rfl, rfl, rfl, rfl, rfl, ?_⟩)))
        exact Bool.eq_false_iff.mpr h4

/-- C6, as amended: for every current and desired record that decode, once the
scalar update has succeeded `Update` issues the untag call with `removedTags`
whether or not that list is empty, and, when the untag call succeeds, the tag call
with `addedTags` whether or not that list is empty, both keyed by `arn`; when
`current.tags` and `desired.tags` hold the same mapping, in whatever order each is
ranged, both lists are empty. -/
theorem Update_tag_calls {σ : Type} (client : AWSCloud9Client σ) (world : σ)
    (req : UpdateRequest)
    (hp : req.Plan.diags.HasError = false)
    (hpt : Diagnostics.HasError req.Plan.value.Tags.ElementsAs.1 = false)
    (hs : req.State.diags.HasError = false)
    (hst : Diagnostics.HasError req.State.value.Tags.ElementsAs.1 = false)
    (hwfs : GoMap.WF req.State.value.Tags.ElementsAs.2)
    (hwf : GoMap.WF req.Plan.value.Tags.ElementsAs.2)
    (hu : (client.UpdateEnvironment world (Update.updatedEnv req.Plan.value)).1 = none) :
    let plan := req.Plan.value
    let diff := Update.tagDiff (req.State.value.Tags.ElementsAs).2 (plan.Tags.ElementsAs).2
    let arn := plan.Arn.ValueString
    let r1 := client.UpdateEnvironment world (Update.updatedEnv plan)
    let r2 := client.UntagResource r1.2 arn diff.1
    let r3 := client.TagResource r2.2 arn diff.2
    (Update client world req).calls =
      ⟨RemoteCall.UpdateEnvironment (Update.updatedEnv plan), none⟩ ::
      ⟨RemoteCall.UntagResource arn diff.1, r2.1⟩ ::
      (match r2.1 with
       | none => [⟨RemoteCall.TagResource arn diff.2, r3.1⟩]
       | some _ => []) ∧
    ((∀ k, GoMap.get? (req.State.value.Tags.ElementsAs).2 k =
        GoMap.get? (plan.Tags.ElementsAs).2 k) → diff = ([], [])) := by
  intro plan diff arn r1 r2 r3
  simp only [r1, r2, r3, arn, diff, plan]
  have h1 : ¬ Diagnostics.HasError (Diagnostics.Append [] req.Plan.diags) = true := by
    rw [Diagnostics.HasError_Append_nil, hp]; simp
  have h2 : ¬ Diagnostics.HasError (Diagnostics.Append (Diagnostics.Append [] req.Plan.diags)
      req.Plan.value.Tags.ElementsAs.1) = true := by
    rw [Diagnostics.HasError_Append, Diagnostics.HasError_Append_nil, hp, hpt]; simp
  have h3 : ¬ Diagnostics.HasError (Diagnostics.Append (Diagnostics.Append
      (Diagnostics.Append [] req.Plan.diags) req.Plan.value.Tags.ElementsAs.1)
      req.State.diags) = true := by
    rw [Diagnostics.HasError_Append, Diagnostics.HasError_Append,
      Diagnostics.HasError_Append_nil, hp, hpt, hs]; simp
  have h4 : ¬ Diagnostics.HasError (Diagnostics.Append (Diagnostics.Append
      (Diagnostics.Append (Diagnostics.Append [] req.Plan.diags)
      req.Plan.value.Tags.ElementsAs.1) req.State.diags)
      req.State.value.Tags.ElementsAs.1) = true := by
    rw [Diagnostics.HasError_Append, Diagnostics.HasError_Append, Diagnostics.HasError_Append,
      Diagnostics.HasError_Append_nil, hp, hpt, hs, hst]; simp
  constructor
  · unfold Update
    dsimp only
    rw [if_neg h1, if_neg h2, if_neg h3, if_neg h4]
    rcases hr1 : client.UpdateEnvironment world (Update.updatedEnv req.Plan.value) with ⟨e1, w1⟩
    rw [hr1] at hu
    dsimp only at hu
    subst hu
    dsimp only
    rcases hr2 : client.UntagResource w1 req.Plan.value.Arn.ValueString
      (Update.tagDiff req.State.value.Tags.ElementsAs.2
        req.Plan.value.Tags.ElementsAs.2).1 with ⟨e2, w2⟩
    cases e2 with
    | some e => rfl
    | none =>
      dsimp only
      rcases hr3 : client.TagResource w2 req.Plan.value.Arn.ValueString
        (Update.tagDiff req.State.value.Tags.ElementsAs.2
          req.Plan.value.Tags.ElementsAs.2).2 with ⟨e3, w3⟩
      cases e3 <;> rfl
  · intro heq
    exact Update.tagDiff_eq_nil _ _ hwfs hwf heq

/-- Witness of C6 as amended: the held tags `b:2, a:1` against the desired tags
`a:1, b:2`, the same mapping ranged in another order; both tag calls go out with an
empty list. -/
theorem Update_tag_calls_witness :
    GoMap.WF reorderedState.Tags.ElementsAs.2 ∧ GoMap.WF reorderedPlan.Tags.ElementsAs.2 ∧
    reorderedState.Tags ≠ reorderedPlan.Tags ∧
    (Update scenarioClient () ⟨⟨[], reorderedPlan⟩, ⟨[], reorderedState⟩⟩).calls =
      [⟨RemoteCall.UpdateEnvironment (Update.updatedEnv reorderedPlan), none⟩,
       ⟨RemoteCall.UntagResource "arn:aws:cloud9:env-1" [], none⟩,
       ⟨RemoteCall.TagResource "arn:aws:cloud9:env-1" [], none⟩] ∧
    Update.tagDiff reorderedState.Tags.ElementsAs.2 reorderedPlan.Tags.ElementsAs.2 =
      ([], []) :=
  ⟨by decide, by decide, by decide,
    (Update_tag_calls scenarioClient () ⟨⟨[], reorderedPlan⟩, ⟨[], reorderedState⟩⟩
      rfl rfl rfl rfl (by decide) (by decide) rfl).1,
    (Update_tag_calls scenarioClient () ⟨⟨[], reorderedPlan⟩, ⟨[], reorderedState⟩⟩
      rfl rfl rfl rfl (by decide) (by decide) rfl).2
      (fun k => GoMap.get?_perm _ _ (by decide) (List.Perm.swap _ _ _) k)⟩

/-- C6, as stated, fails: with `current.tags` equal to `desired.tags` the untag call
and the tag call are both issued, each with an empty list. -/
theorem Update_issues_empty_tag_calls :
    (Update scenarioClient () ⟨⟨[], scenarioState⟩, ⟨[], scenarioState⟩⟩).calls =
      [⟨RemoteCall.UpdateEnvironment (Update.updatedEnv scenarioState), none⟩,
       ⟨RemoteCall.UntagResource "arn:aws:cloud9:env-1" [], none⟩,
       ⟨RemoteCall.TagResource "arn:aws:cloud9:env-1" [], none⟩] ∧
    ¬ (∀ r ∈ (Update scenarioClient () ⟨⟨[], scenarioState⟩, ⟨[], scenarioState⟩⟩).calls,
        (∀ arn keys, r.call = RemoteCall.UntagResource arn keys → keys ≠ []) ∧
        (∀ arn tags, r.call = RemoteCall.TagResource arn tags → tags ≠ [])) := by
  have hc : (Update scenarioClient () ⟨⟨[], scenarioState⟩, ⟨[], scenarioState⟩⟩).calls =
      [⟨RemoteCall.UpdateEnvironment (Update.updatedEnv scenarioState), none⟩,
       ⟨RemoteCall.UntagResource "arn:aws:cloud9:env-1" [], none⟩,
       ⟨RemoteCall.TagResource "arn:aws:cloud9:env-1" [], none⟩] := by decide
  refine ⟨hc, ?_⟩
  intro h
  have h1 := h ⟨RemoteCall.UntagResource "arn:aws:cloud9:env-1" [], none⟩
    (by rw [hc]; simp)
  exact h1.1 _ _ rfl rfl

/-! ## Properties of convertModelToPlan -/

theorem len_pos_iff (s : String) : 0 < len s ↔ s ≠ "" := by
  obtain ⟨cs⟩ := s
  cases cs with
  | nil => simp [len, String.utf8ByteSize, String.utf8ByteSize.go]
  | cons c cs =>
    constructor
    · intro _ h
      have := congrArg String.data h
      simp at this
    · intro _
      simp only [len, String.utf8ByteSize, String.utf8ByteSize.go]
      have := Char.utf8Size_pos c
      omega

/-- C9, as amended: for every remote record, `convertModelToPlan` stores an empty
`description` or `bastionHost` as null and never as an empty string value, stores
`environmentPath` and `nodePath` always as string values, also when they are
empty, and copies every non-empty scalar field verbatim. -/
theorem convertModelToPlan_scalars (state : SSHEnvironmentModel)
    (environment : Cloud9SSHEnvironment) :
    let r := (convertModelToPlan state environment).1
    r.Description = (if environment.Description = "" then StringValue.null
      else StringValue.known environment.Description) ∧
    r.BastionURL = (if environment.BastionHost = "" then StringValue.null
      else StringValue.known environment.BastionHost) ∧
    r.EnvironmentPath = StringValue.known environment.EnvironmentPath ∧
    r.NodePath = StringValue.known environment.NodePath ∧
    r.Arn = StringValue.known environment.Arn ∧
    r.ID = StringValue.known environment.EnvironmentId ∧
    r.Name = StringValue.known environment.Name ∧
    r.LoginName = StringValue.known environment.LoginName ∧
    r.Hostname = StringValue.known environment.Hostname ∧
    r.Port = Int64Value.known environment.Port := by
  intro r
  simp only [r]
  unfold convertModelToPlan
  dsimp only
  by_cases hb : environment.BastionHost = "" <;>
    by_cases hd : environment.Description = ""
  · have hb2 : ¬ len environment.BastionHost > 0 := fun h => (len_pos_iff _).mp h hb
    have hd2 : ¬ len environment.Description > 0 := fun h => (len_pos_iff _).mp h hd
    rw [if_neg hb2, if_neg hd2, if_pos hb, if_pos hd]
    exact ⟨rfl, rfl, rfl, rfl, rfl, rfl, rfl, rfl, rfl, rfl⟩
  · have hb2 : ¬ len environment.BastionHost > 0 := fun h => (len_pos_iff _).mp h hb
    have hd2 : len environment.Description > 0 := (len_pos_iff _).mpr hd
    rw [if_neg hb2, if_pos hd2, if_pos hb, if_neg hd]
    exact ⟨rfl, rfl, rfl, rfl, rfl, rfl, rfl, rfl, rfl, rfl⟩
  · have hb2 : len environment.BastionHost > 0 := (len_pos_iff _).mpr hb
    have hd2 : ¬ len environment.Description > 0 := fun h => (len_pos_iff _).mp h hd
    rw [if_pos hb2, if_neg hd2, if_neg hb, if_pos hd]
    exact ⟨rfl, rfl, rfl, rfl, rfl, rfl, rfl, rfl, rfl, rfl⟩
  · have hb2 : len environment.BastionHost > 0 := (len_pos_iff _).mpr hb
    have hd2 : len environment.Description > 0 := (len_pos_iff _).mpr hd
    rw [if_pos hb2, if_pos hd2, if_neg hb, if_neg hd]
    exact ⟨rfl, rfl, rfl, rfl, rfl, rfl, rfl, rfl, rfl, rfl⟩

/-- C9, as stated, fails: a remote record with an empty `environmentPath` and an
empty `nodePath` is mapped to a record that holds both as the empty string value,
not as null. -/
theorem convertModelToPlan_empty_paths_known :
    bareEnvironment.EnvironmentPath = "" ∧ bareEnvironment.NodePath = "" ∧
    (convertModelToPlan scenarioState bareEnvironment).1.EnvironmentPath =
      StringValue.known "" ∧
    (convertModelToPlan scenarioState bareEnvironment).1.NodePath = StringValue.known "" ∧
    (convertModelToPlan scenarioState bareEnvironment).1.EnvironmentPath ≠ StringValue.null ∧
    (convertModelToPlan scenarioState bareEnvironment).1.NodePath ≠ StringValue.null := by
  decide

/-! ## Properties of Create -/

/-- The plan record `Create.prepare` leaves differs from the plan at most in
`EnvironmentPath`. -/
theorem Create.prepare_plan (plan : SSHEnvironmentModel) (diags : Diagnostics) :
    (Create.prepare plan diags).2.1 =
      { plan with EnvironmentPath := (Create.prepare plan diags).2.1.EnvironmentPath } := by
  unfold Create.prepare
  dsimp only
  cases plan.EnvironmentPath.IsNull <;> rfl

/-- C10: for every desired record that decodes, when the remote create succeeds with
id `i`: if the read-back returns a non-empty list, the record `Create` stores has
`id = i` and `arn`, `nodePath`, `environmentPath` of the first read-back record, and
every other field as in the desired record; if the read-back returns no record,
`Create` reports an error and stores nothing. -/
theorem Create_stores {σ : Type} (client : AWSCloud9Client σ) (world : σ) (req : CreateRequest)
    (i : String) (w1 : σ)
    (hdec : req.Plan.diags.HasError = false)
    (hc : client.CreateEnvironmentSSH world
      (Create.prepare req.Plan.value (Diagnostics.Append [] req.Plan.diags)).1 =
        (Except.ok ⟨i⟩, w1)) :
    (∀ r rs w2, client.GetSSHEnvironments w1 i = (Except.ok (r :: rs), w2) →
      (Create client world req).State = some
        { req.Plan.value with
          ID := StringValue.known i
          Arn := StringValue.known r.Arn
          NodePath := StringValue.known r.NodePath
          EnvironmentPath := StringValue.known r.EnvironmentPath }) ∧
    (∀ w2, client.GetSSHEnvironments w1 i = (Except.ok [], w2) →
      (Create client world req).State = none ∧
      (Create client world req).Diagnostics.HasError = true) := by
  have h1 : ¬ Diagnostics.HasError (Diagnostics.Append [] req.Plan.diags) = true := by
    rw [Diagnostics.HasError_Append_nil, hdec]; simp
  constructor
  · intro r rs w2 hg
    unfold Create
    dsimp only
    rw [if_neg h1, hc]
    dsimp only
    rw [hg]
    dsimp only
    rw [Create.prepare_plan]
  · intro w2 hg
    unfold Create
    dsimp only
    rw [if_neg h1, hc]
    dsimp only
    rw [hg]
    exact ⟨rfl, Diagnostics.HasError_AddError _ _ _⟩

/-- Witness of C10: the scenario "create with partial tags" against a remote side
that returns `nodePath = /usr/bin/node`, and against one whose read-back is empty. -/
theorem Create_stores_witness :
    (Create scenarioClient () ⟨⟨[], scenarioPlan⟩⟩).State = some scenarioState ∧
    ((Create emptyClient () ⟨⟨[], scenarioPlan⟩⟩).State = none ∧
      (Create emptyClient () ⟨⟨[], scenarioPlan⟩⟩).Diagnostics.HasError = true) :=
  ⟨(Create_stores scenarioClient () ⟨⟨[], scenarioPlan⟩⟩ "env-1" () rfl rfl).1
      (scenarioEnvironment "env-1") [] () rfl,
    (Create_stores emptyClient () ⟨⟨[], scenarioPlan⟩⟩ "env-1" () rfl rfl).2 () rfl⟩

/-- Whatever the tag loop reported, a `Create` whose plan decodes issues the create
call first. -/
theorem Create_first_call {σ : Type} (client : AWSCloud9Client σ) (world : σ)
    (req : CreateRequest) (hdec : req.Plan.diags.HasError = false) :
    ∃ e, (Create client world req).calls.head? =
      some ⟨RemoteCall.CreateEnvironmentSSH
        (Create.prepare req.Plan.value (Diagnostics.Append [] req.Plan.diags)).1, e⟩ := by
  have h1 : ¬ Diagnostics.HasError (Diagnostics.Append [] req.Plan.diags) = true := by
    rw [Diagnostics.HasError_Append_nil, hdec]; simp
  unfold Create
  dsimp only
  rw [if_neg h1]
  rcases hc : client.CreateEnvironmentSSH world
    (Create.prepare req.Plan.value (Diagnostics.Append [] req.Plan.diags)).1 with ⟨res, w1⟩
  cases res with
  | error err => exact ⟨some err, rfl⟩
  | ok environment =>
    dsimp only
    rcases hg : client.GetSSHEnvironments w1 environment.EnvironmentId with ⟨res2, w2⟩
    cases res2 with
    | error err => exact ⟨none, rfl⟩
    | ok l =>
      cases l with
      | nil => exact ⟨none, rfl⟩
      | cons r rs => exact ⟨none, rfl⟩

/-- C5, on the code: a desired record with a tag value that cannot be converted makes
`Create` add the conversion error and go on: the create call is issued, carrying
the tag with an empty value, and so is the read-back. -/
theorem Create_conversion_error_calls :
    (StringValue.unknown.ToTerraformValue.1.As).2 ≠ none ∧
    (Create scenarioClient () ⟨⟨[], unknownTagPlan⟩⟩).Diagnostics =
      [⟨Severity.error, "Convert Error", "Error converting value from tag"⟩] ∧
    (Create scenarioClient () ⟨⟨[], unknownTagPlan⟩⟩).calls =
      [⟨RemoteCall.CreateEnvironmentSSH
          { Name := "dev1", LoginName := "ubuntu", Hostname := "1.2.3.4", Port := 22,
            Tags := [⟨"env", ""⟩], BastionHost := "", NodePath := "",
            EnvironmentPath := "" }, none⟩,
       ⟨RemoteCall.GetSSHEnvironments "env-1", none⟩] := by
  decide

/-- C8, on the code: a desired record with `environmentPath` set explicitly and
non-empty gives a create request whose `EnvironmentPath` is the (still unknown, so
empty) id, and the record mapped back holds the empty string instead of the
desired path. -/
theorem Create_request_environmentPath :
    pathPlan.EnvironmentPath = StringValue.known "/home/ubuntu/environment" ∧
    (Create scenarioClient () ⟨⟨[], pathPlan⟩⟩).calls.head? =
      some ⟨RemoteCall.CreateEnvironmentSSH (Create.prepare pathPlan []).1, none⟩ ∧
    (Create.prepare pathPlan []).1.EnvironmentPath = "" ∧
    (convertModelToPlan pathPlan
      (Cloud9SSHEnvironment.ofRequest (Create.prepare pathPlan []).1
        "arn:aws:cloud9:env-1" "env-1" "")).1.EnvironmentPath = StringValue.known "" ∧
    (convertModelToPlan pathPlan
      (Cloud9SSHEnvironment.ofRequest (Create.prepare pathPlan []).1
        "arn:aws:cloud9:env-1" "env-1" "")).1.EnvironmentPath ≠ pathPlan.EnvironmentPath := by
  decide

/-! ## The round trip through the create request -/

theorem convertModelToPlan_eq (state : SSHEnvironmentModel)
    (environment : Cloud9SSHEnvironment) :
    (convertModelToPlan state environment).1 =
      { Arn := StringValue.known environment.Arn
        ID := StringValue.known environment.EnvironmentId
        Name := StringValue.known environment.Name
        Description := if len environment.Description > 0
          then StringValue.known environment.Description else StringValue.null
        LoginName := StringValue.known environment.LoginName
        Hostname := StringValue.known environment.Hostname
        Port := Int64Value.known environment.Port
        EnvironmentPath := StringValue.known environment.EnvironmentPath
        NodePath := StringValue.known environment.NodePath
        BastionURL := if len environment.BastionHost > 0
          then StringValue.known environment.BastionHost else StringValue.null
        Tags := MapValue.known (convertModelToPlan.tagLoop environment.Tags []) } := by
  unfold convertModelToPlan
  dsimp only
  by_cases hb : len environment.BastionHost > 0 <;>
    by_cases hd : len environment.Description > 0 <;>
    simp only [hb, hd, if_true, if_false]

theorem Create.tagLoop_tags (es : GoMap StringValue) (acc : List Tag × Diagnostics) :
    (Create.tagLoop es acc).1 =
      acc.1 ++ es.map (fun e => (⟨e.1, (e.2.ToTerraformValue.1.As).1⟩ : Tag)) := by
  induction es generalizing acc with
  | nil => simp [Create.tagLoop]
  | cons e rest ih =>
    obtain ⟨k, v⟩ := e
    obtain ⟨tags, diags⟩ := acc
    simp only [Create.tagLoop, ih, List.map_cons, List.append_assoc, List.singleton_append]

theorem convertModelToPlan.tagLoop_of_not_mem (tags : List Tag) (m : GoMap StringValue)
    (k : String) (h : k ∉ tags.map Tag.Key) :
    GoMap.get? (convertModelToPlan.tagLoop tags m) k = GoMap.get? m k := by
  induction tags generalizing m with
  | nil => simp [convertModelToPlan.tagLoop]
  | cons t rest ih =>
    have h1 : k ≠ t.Key := fun e => h (by simp [e])
    have h2 : k ∉ rest.map Tag.Key := fun e => h (by simp [e])
    simp only [convertModelToPlan.tagLoop, ih _ h2, GoMap.get?_set, if_neg h1]

theorem convertModelToPlan.tagLoop_of_mem (tags : List Tag) (m : GoMap StringValue)
    (k v : String) (hnd : (tags.map Tag.Key).Nodup) (h : (⟨k, v⟩ : Tag) ∈ tags) :
    GoMap.get? (convertModelToPlan.tagLoop tags m) k = some (StringValue.known v) := by
  induction tags generalizing m with
  | nil => simp at h
  | cons t rest ih =>
    have hnd2 : t.Key ∉ rest.map Tag.Key ∧ (rest.map Tag.Key).Nodup := by
      simpa using hnd
    simp only [convertModelToPlan.tagLoop]
    rcases List.mem_cons.mp h with e | e
    · subst e
      rw [convertModelToPlan.tagLoop_of_not_mem rest _ _ hnd2.1, GoMap.get?_set]
      simp
    · exact ih _ hnd2.2 e

/-- Every field of a desired record other than `environmentPath` that the create
request can carry comes back from the round trip. -/
theorem Create_request_roundtrip (plan state : SSHEnvironmentModel)
    (arn envId description : String) :
    let request := (Create.prepare plan []).1
    let back := (convertModelToPlan state
      (Cloud9SSHEnvironment.ofRequest request arn envId description)).1
    (∀ s, plan.Name = StringValue.known s → back.Name = plan.Name) ∧
    (∀ s, plan.LoginName = StringValue.known s → back.LoginName = plan.LoginName) ∧
    (∀ s, plan.Hostname = StringValue.known s → back.Hostname = plan.Hostname) ∧
    (∀ v, plan.Port = Int64Value.known v → -32768 ≤ v → v < 32768 →
      back.Port = plan.Port) ∧
    (∀ s, plan.BastionURL = StringValue.known s → s ≠ "" →
      back.BastionURL = plan.BastionURL) ∧
    (∀ s, plan.NodePath = StringValue.known s → back.NodePath = plan.NodePath) ∧
    (∀ es, plan.Tags = MapValue.known es → GoMap.WF es →
      (∀ e ∈ es, ∃ v, e.2 = StringValue.known v) →
      ∃ bs, back.Tags = MapValue.known bs ∧ ∀ k, GoMap.get? bs k = GoMap.get? es k) := by
  intro request back
  simp only [back, request, convertModelToPlan_eq]
  refine ⟨?_, ?_, ?_, ?_, ?_, ?_, ?_⟩
  · intro s h
    simp [Create.prepare, Cloud9SSHEnvironment.ofRequest, h, StringValue.ValueString]
  · intro s h
    simp [Create.prepare, Cloud9SSHEnvironment.ofRequest, h, StringValue.ValueString]
  · intro s h
    simp [Create.prepare, Cloud9SSHEnvironment.ofRequest, h, StringValue.ValueString]
  · intro v h h1 h2
    have : int16 v = v := by
      unfold int16
      omega
    simp [Create.prepare, Cloud9SSHEnvironment.ofRequest, h, Int64Value.ValueInt64, this]
  · intro s h hs
    have : len s > 0 := (len_pos_iff s).mpr hs
    simp [Create.prepare, Cloud9SSHEnvironment.ofRequest, h, StringValue.ValueString,
      StringValue.IsNull, this]
  · intro s h
    simp [Create.prepare, Cloud9SSHEnvironment.ofRequest, h, StringValue.ValueString,
      StringValue.IsNull]
  · intro es h hwf hknown
    refine ⟨_, rfl, ?_⟩
    intro k
    have htags : (Cloud9SSHEnvironment.ofRequest (Create.prepare plan []).1 arn envId
        description).Tags =
        es.map (fun e => (⟨e.1, (e.2.ToTerraformValue.1.As).1⟩ : Tag)) := by
      simp [Create.prepare, Cloud9SSHEnvironment.ofRequest, h, MapValue.Elements,
        Create.tagLoop_tags]
    rw [htags]
    have hkeys : (es.map (fun e => (⟨e.1, (e.2.ToTerraformValue.1.As).1⟩ : Tag))).map Tag.Key
        = es.map Prod.fst := by
      simp [List.map_map, Function.comp_def]
    cases hg : GoMap.get? es k with
    | none =>
      rw [convertModelToPlan.tagLoop_of_not_mem]
      · rfl
      · rw [hkeys]
        exact (GoMap.get?_eq_none_iff es k).mp hg
    | some sv =>
      have hmem := GoMap.mem_of_get? es k sv hg
      obtain ⟨v, hv⟩ := hknown (k, sv) hmem
      simp only at hv
      subst hv
      apply convertModelToPlan.tagLoop_of_mem
      · rw [hkeys]
        exact hwf
      · exact List.mem_map.mpr ⟨(k, StringValue.known v), hmem, rfl⟩

end Provider
